import Mathlib

/-!
Shallow embedding of `src/RustyRogue/src/main.rs` (a turn-based 3D grid
roguelike core): tiles, the flat 3D map with its linearized indexing, the
`Object` entity type with movement and posture toggling, the occupancy
query, and the turn loop's field-of-view staleness logic.

Machine-integer conventions: Rust `i32` values are modelled as `Int` (every
quantity reached by the claims stays far inside the `i32` range, so wrapping
never fires), and the `as usize` cast is modelled explicitly as reduction
modulo `2^64` followed by `Int.toNat` (a negative `i32` cast to `usize`
becomes a huge index, which then fails the bounds check of the vector
access). A Rust `Vec` index that would panic out of bounds is modelled by
`List.getElem?` returning `none`.
-/

namespace RustyRogue

/-- actual size of the window (`SCREEN_WIDTH` in main.rs, line 8). -/
def SCREEN_WIDTH : Int := 90

/-- actual size of the window (`SCREEN_HEIGHT`, line 9). -/
def SCREEN_HEIGHT : Int := 60

/-- size of the map (`MAP_WIDTH`, line 12). -/
def MAP_WIDTH : Int := 80

/-- size of the map (`MAP_HEIGHT`, line 13). -/
def MAP_HEIGHT : Int := 50

/-- size of the map (`MAP_DEPTH`, line 14). -/
def MAP_DEPTH : Int := 20

/-- Rust `expr as usize` on a 64-bit target: reduce into `[0, 2^64)` and
reinterpret as an unsigned machine word (modelled as `Nat`). -/
def usizeOf (i : Int) : Nat := (i % (2 ^ 64 : Int)).toNat

/-- An RGB color (the `tcod::colors::Color` struct used by the program). -/
structure Color where
  r : Nat
  g : Nat
  b : Nat
deriving DecidableEq, Repr

/-- `colors::WHITE` from tcod. -/
def WHITE : Color := { r := 255, g := 255, b := 255 }

/-- `colors::YELLOW` from tcod. -/
def YELLOW : Color := { r := 255, g := 255, b := 0 }

/-- A tile of the map and its properties (struct `Tile`, lines 31-35). -/
structure Tile where
  blocked : Bool
  block_sight : Bool
deriving DecidableEq, Repr

/-- `Tile::empty` (line 38). -/
def Tile.empty : Tile := { blocked := false, block_sight := false }

/-- `Tile::wall` (line 42). -/
def Tile.wall : Tile := { blocked := true, block_sight := true }

/-- `type Map = Vec<Tile>` (line 28). -/
abbrev Map := List Tile

/-- `mAlg` (lines 216-219): linearize a 3D coordinate,
`eq = x + MAP_WIDTH * (y + MAP_DEPTH * z)`, returned `as usize`. -/
def mAlg (x y z : Int) : Nat :=
  usizeOf (x + MAP_WIDTH * (y + MAP_DEPTH * z))

/-- The spec's canonical linearization formula, written from the spec's own
words (`index = x + WIDTH*(y + DEPTH*z)`), to be compared with the accesses
the code performs. -/
def specIndex (x y z : Int) : Int := x + MAP_WIDTH * (y + MAP_DEPTH * z)

/-- The freshly allocated map of `make_map` (line 123): `MAP_DEPTH * MAP_WIDTH *
MAP_HEIGHT` tiles, all `Tile::empty`. -/
def emptyMap : Map :=
  List.replicate (usizeOf (MAP_DEPTH * MAP_WIDTH * MAP_HEIGHT)) Tile.empty

/-- `make_map` (lines 121-140): fill with unblocked tiles, then apply each
authored placement in source order (the commented-out lines are omitted, as
in the source; `map[0]` is the literal index 0). -/
def make_map : Map :=
  (((((((((emptyMap.set
    (usizeOf (30 + MAP_WIDTH * (22 + MAP_DEPTH * 10))) Tile.wall).set
    (usizeOf (10 + MAP_WIDTH * (22 + MAP_DEPTH * 10))) Tile.wall).set
    (usizeOf (10 + MAP_WIDTH * (12 + MAP_DEPTH * 1))) Tile.wall).set
    (usizeOf (15 + MAP_WIDTH * (15 + MAP_DEPTH * 0))) Tile.empty).set
    (usizeOf (0 + MAP_WIDTH * (2 + MAP_DEPTH * 0))) Tile.wall).set
    (usizeOf (30 + MAP_WIDTH * (29 + MAP_DEPTH * 1))) Tile.wall).set
    (usizeOf (23 + MAP_WIDTH * (6 + MAP_DEPTH * 0))) Tile.wall).set
    0 Tile.wall).set
    (usizeOf (6 + MAP_WIDTH * (6 + MAP_DEPTH * 1))) Tile.wall).set
    (usizeOf (30 + MAP_WIDTH * (25 + MAP_DEPTH * 0))) Tile.wall

/-- The authored placement list of `make_map`, as (coordinate, tile) pairs in
source order: each `map[(cx + MAP_WIDTH * (cy + MAP_DEPTH * cz)) as usize]`
assignment contributes its coordinate `(cx, cy, cz)` and its tile, and
`map[0]` contributes `(0,0,0)`. -/
def placements : List ((Int × Int × Int) × Tile) :=
  [((30, 22, 10), Tile.wall),
   ((10, 22, 10), Tile.wall),
   ((10, 12, 1), Tile.wall),
   ((15, 15, 0), Tile.empty),
   ((0, 2, 0), Tile.wall),
   ((30, 29, 1), Tile.wall),
   ((23, 6, 0), Tile.wall),
   ((0, 0, 0), Tile.wall),
   ((6, 6, 1), Tile.wall),
   ((30, 25, 0), Tile.wall)]

/-- Tile lookup at a coordinate: the indexing `map[mAlg(x, y, z)]` used by
`is_blocked` and the fov setup (the spec's `tileAt`); `none` models the
out-of-bounds panic. -/
def tileAt (map : Map) (x y z : Int) : Option Tile :=
  map[mAlg x y z]?

/-- In-bounds predicate for a coordinate, from the spec's map bounds. -/
def inBounds (x y z : Int) : Prop :=
  0 ≤ x ∧ x < MAP_WIDTH ∧ 0 ≤ y ∧ y < MAP_HEIGHT ∧ 0 ≤ z ∧ z < MAP_DEPTH

instance (x y z : Int) : Decidable (inBounds x y z) := by
  unfold inBounds; infer_instance

/-- The tile the authored placement list assigns to a coordinate: placements
are applied in order over an all-empty map, later writes winning, where a
placement lands on `(x,y,z)`'s tile slot exactly when its coordinate has the
same linearized index `mAlg`. -/
def authoredTile (x y z : Int) : Tile :=
  placements.foldl
    (fun t p => if mAlg p.1.1 p.1.2.1 p.1.2.2 = mAlg x y z then p.2 else t)
    Tile.empty

/-- A generic object: the player, a monster, an item (struct `Object`,
lines 49-60). -/
structure Object where
  x : Int
  y : Int
  z : Int
  name : String
  char : Char
  color : Color
  blocks : Bool
  alive : Bool
  standing : Bool
deriving DecidableEq, Repr

/-- `Object::new` (lines 63-75). -/
def Object.new (x y z : Int) (name : String) (char : Char) (color : Color)
    (blocks : Bool) : Object :=
  { x := x, y := y, z := z, name := name, char := char, color := color,
    blocks := blocks, alive := false, standing := true }

/-- `Object::standing` (lines 78-86), the dwarf-fortress-like standing/lying
posture toggle. Renamed `standingToggle` here only because the `standing`
field accessor already takes that Lean name; the body is the method's. -/
def Object.standingToggle (o : Object) : Object :=
  if o.standing = false then
    { o with blocks := true, standing := true }
  else
    { o with blocks := false, standing := false }

/-- `Object::pos` (lines 88-90). -/
def Object.pos (o : Object) : Int × Int × Int := (o.x, o.y, o.z)

/-- `Object::set_pos` (lines 92-96). -/
def Object.set_pos (o : Object) (x y z : Int) : Object :=
  { o with x := x, y := y, z := z }

/-- `Object::move_by` (lines 99-105): move by the given amount, if the
destination is not blocked. The vector access is the inline expression
`map[((self.x + dx) + MAP_WIDTH * ((self.y + dy) + MAP_DEPTH * (self.z + dz))) as usize]`;
`none` models its out-of-bounds panic. The map is taken by shared reference
(`&Map`) and never written. -/
def Object.move_by (o : Object) (dx dy dz : Int) (map : Map) : Option Object :=
  match map[usizeOf ((o.x + dx) + MAP_WIDTH * ((o.y + dy) + MAP_DEPTH * (o.z + dz)))]? with
  | none => none
  | some t =>
    if !t.blocked then
      some { o with x := o.x + dx, y := o.y + dy, z := o.z + dz }
    else
      some o

/-- `is_blocked` (lines 142-151): first test the map tile, then check for any
blocking objects. `none` models the panic of `map[mAlg(x, y, z)]` when the
index is out of bounds. -/
def is_blocked (x y z : Int) (map : Map) (objects : List Object) : Option Bool :=
  match map[mAlg x y z]? with
  | none => none
  | some t =>
    if t.blocked then
      some true
    else
      some (objects.any fun o => o.blocks && o.pos == (x, y, z))

/-- The index expression of the tile access in `render_all` (line 163):
`eq = x + MAP_WIDTH * (y + MAP_DEPTH * 10)`, used as `map[eq as usize]`. -/
def render_eq (x y : Int) : Nat :=
  usizeOf (x + MAP_WIDTH * (y + MAP_DEPTH * 10))

/-- The state of the tcod `FovMap` as observable through `is_in_fov`: which
(x, y) cells are currently marked visible. The fov algorithm itself lives in
the external tcod library, so recomputation is kept abstract (theorems
quantify over an arbitrary compute function). -/
structure FovState where
  visible : Int → Int → Bool

/-- Modelled from the spec: "querying before any recompute must return false
for all cells". The concrete initial fov_map is built by the external tcod
`FovMap` (lines 244-249), whose internals are not part of this repository;
no theorem below depends on this choice. -/
def initFov : FovState := { visible := fun _ _ => false }

/-- The discrete actions `handle_keys` (lines 190-214) distinguishes:
Alt+Enter, Escape, the four arrow keys, the printable key for the posture
toggle, and anything else. -/
inductive Action where
  | altEnter
  | escape
  | up
  | down
  | left
  | right
  | keyS
  | other
deriving DecidableEq, Repr

/-- `handle_keys` (lines 190-214): returns the updated player together with
the `exit` flag. The Alt+Enter fullscreen toggle only touches the external
display, so on the simulation state it is a no-op; unrecognized input is a
no-op. `none` propagates a `move_by` out-of-bounds panic. -/
def handle_keys (a : Action) (player : Object) (map : Map) :
    Option (Object × Bool) :=
  match a with
  | .altEnter => some (player, false)
  | .escape => some (player, true)
  | .up => (player.move_by 0 (-1) 0 map).map fun p => (p, false)
  | .down => (player.move_by 0 1 0 map).map fun p => (p, false)
  | .left => (player.move_by (-1) 0 0 map).map fun p => (p, false)
  | .right => (player.move_by 1 0 0 map).map fun p => (p, false)
  | .keyS => some (player.standingToggle, false)
  | .other => some (player, false)

/-- The simulation state owned by the `main` loop (lines 221-271): the two
objects of `let mut objects = [player, npc]` (index `PLAYER = 0` is the
player), `previous_player_position`, and the fov map. -/
structure GameState where
  playerObj : Object
  npcObj : Object
  prevPos : Int × Int
  fov : FovState

/-- The loop's staleness test (line 253):
`fov_recompute = previous_player_position != (objects[PLAYER].x, objects[PLAYER].y)`.
Only the viewpoint's (x, y) enters the comparison; z does not. -/
def fov_recompute (s : GameState) : Bool :=
  decide (s.prevPos ≠ (s.playerObj.x, s.playerObj.y))

/-- The fov map in effect during `render_all` (lines 156-160): recomputed
from the player's position when `fov_recompute` holds, otherwise the one
kept from the previous turn. `cf` abstracts tcod's `compute_fov`. -/
def render_fov (cf : FovState → Int → Int → FovState) (s : GameState) :
    FovState :=
  if fov_recompute s then cf s.fov s.playerObj.x s.playerObj.y else s.fov

/-- One iteration of the `while` loop (lines 251-270): compute the staleness
flag and render (possibly recomputing the fov), record
`previous_player_position`, then run `handle_keys` on `objects[PLAYER]`.
Returns the successor state and the `exit` flag; `none` models a panic. -/
def stepTurn (cf : FovState → Int → Int → FovState) (map : Map)
    (s : GameState) (a : Action) : Option (GameState × Bool) :=
  let fov1 := render_fov cf s
  let prev1 := (s.playerObj.x, s.playerObj.y)
  match handle_keys a s.playerObj map with
  | none => none
  | some (p', ex) =>
    some ({ s with playerObj := p', prevPos := prev1, fov := fov1 }, ex)

/-- Run the turn loop over a list of input actions, stopping when
`handle_keys` signals exit (the `break` on line 268). -/
def runActions (cf : FovState → Int → Int → FovState) (map : Map) :
    GameState → List Action → Option GameState
  | s, [] => some s
  | s, a :: rest =>
    match stepTurn cf map s a with
    | none => none
    | some (s', true) => some s'
    | some (s', false) => runActions cf map s' rest

/-- The initial configuration of `main` (lines 232-239): the player at
`(SCREEN_WIDTH / 2, SCREEN_HEIGHT / 2, 10)`, the NPC five cells to the left,
`previous_player_position = (-1, -1)`. -/
def initState : GameState :=
  { playerObj := Object.new (SCREEN_WIDTH / 2) (SCREEN_HEIGHT / 2) 10
      "Player" '@' WHITE true
    npcObj := Object.new (SCREEN_WIDTH / 2 - 5) (SCREEN_HEIGHT / 2) 10
      "Orc" '@' YELLOW true
    prevPos := (-1, -1)
    fov := initFov }

/-- States reachable by iterating the turn loop from `main`'s initial
configuration on the authored map, for a given abstract fov recompute
function `cf` and arbitrary input actions. -/
inductive Reachable (cf : FovState → Int → Int → FovState) : GameState → Prop
  | init : Reachable cf initState
  | step {s s' : GameState} {a : Action} {e : Bool} :
      Reachable cf s → stepTurn cf make_map s a = some (s', e) →
      Reachable cf s'

/-- A trivial fov recompute function (keeps the previous state), used to
instantiate the abstract `compute_fov` parameter on concrete runs. -/
def wCf : FovState → Int → Int → FovState := fun f _ _ => f

/-- A concrete object placed at (1, 2, 3), used to instantiate theorems with
hypotheses on concrete inputs. -/
def wObj : Object := Object.new 1 2 3 "p" '@' WHITE true

/-- `wObj` after a committed move by (-1, -2, -3). -/
def wObjMoved : Object := { wObj with x := 0, y := 0, z := 0 }

/-- A concrete standing, blocking object (as `Object::new` creates the
player). -/
def wPlayer : Object := Object.new 0 0 0 "q" '@' WHITE true

/-- The state after one posture-toggle turn from the initial configuration
(fov kept by `wCf`). -/
def wS1 : GameState :=
  { initState with
      playerObj := initState.playerObj.standingToggle
      prevPos := (initState.playerObj.x, initState.playerObj.y)
      fov := render_fov wCf initState }

/-!
Helper lemmas: a characterization of `make_map` as a function of the
linearized index, and arithmetic facts about `mAlg` on bounded coordinates.
-/

theorem getset (l : List α) (i j : Nat) (a : α) (hi : i < l.length) :
    (l.set i a)[j]? = if i = j then some a else l[j]? := by
  rw [List.getElem?_set]
  split_ifs <;> simp_all

theorem emptyMap_eq : emptyMap = List.replicate 80000 Tile.empty := by
  have h : usizeOf (MAP_DEPTH * MAP_WIDTH * MAP_HEIGHT) = 80000 := by decide
  unfold emptyMap
  rw [h]

theorem emptyMap_length : emptyMap.length = 80000 := by
  rw [emptyMap_eq, List.length_replicate]

theorem make_map_lit :
    make_map = (((((((((emptyMap.set 17790 Tile.wall).set
      17770 Tile.wall).set 2570 Tile.wall).set 1215 Tile.empty).set
      160 Tile.wall).set 3950 Tile.wall).set 503 Tile.wall).set
      0 Tile.wall).set 2086 Tile.wall).set 2030 Tile.wall := rfl

set_option maxHeartbeats 1000000 in
theorem make_map_getElem (i : Nat) (h : i < 80000) :
    make_map[i]? =
      some (if i = 17790 ∨ i = 17770 ∨ i = 2570 ∨ i = 160 ∨ i = 3950 ∨ i = 503
              ∨ i = 0 ∨ i = 2086 ∨ i = 2030 then Tile.wall else Tile.empty) := by
  have hrep : emptyMap[i]? = some Tile.empty := by
    rw [emptyMap_eq, List.getElem?_replicate, if_pos h]
  rw [make_map_lit]
  rw [getset, getset, getset, getset, getset, getset, getset, getset, getset,
    getset]
  rw [hrep]
  · split_ifs <;> (try (simp_all; done)) <;> (exfalso; omega)
  all_goals try simp only [List.length_set]
  all_goals rw [emptyMap_length]
  all_goals omega

theorem two_pow_64 : (2 : Int) ^ 64 = 18446744073709551616 := by norm_num

theorem mAlg_toNat (x y z : Int) (h0 : 0 ≤ x + 80 * y + 1600 * z)
    (hlt : x + 80 * y + 1600 * z < 18446744073709551616) :
    (mAlg x y z : Int) = x + 80 * y + 1600 * z := by
  unfold mAlg usizeOf MAP_WIDTH MAP_DEPTH
  rw [two_pow_64]
  have hv : x + 80 * (y + 20 * z) = x + 80 * y + 1600 * z := by ring
  rw [hv]
  omega

theorem mAlg_lt_80000 (x y z : Int) (h : inBounds x y z) :
    mAlg x y z < 80000 := by
  unfold inBounds MAP_WIDTH MAP_HEIGHT MAP_DEPTH at h
  have e := mAlg_toNat x y z (by omega) (by omega)
  omega

theorem tileAt_make_map (x y z : Int) (h : inBounds x y z) :
    tileAt make_map x y z =
      some (if mAlg x y z = 17790 ∨ mAlg x y z = 17770 ∨ mAlg x y z = 2570
              ∨ mAlg x y z = 160 ∨ mAlg x y z = 3950 ∨ mAlg x y z = 503
              ∨ mAlg x y z = 0 ∨ mAlg x y z = 2086 ∨ mAlg x y z = 2030
            then Tile.wall else Tile.empty) := by
  unfold tileAt
  exact make_map_getElem (mAlg x y z) (mAlg_lt_80000 x y z h)

/-- C1 counterexample: the in-bounds coordinate (30, 42, 9) appears in no
authored placement, yet its tile lookup yields the wall tile, because the
linearization aliases it with the placement at (30, 22, 10)
(`30 + 80*(42 + 20*9) = 30 + 80*(22 + 20*10) = 17790`). So the claim "the
empty tile otherwise" is false as stated. -/
theorem C1_counterexample :
    inBounds 30 42 9 ∧
    (placements.all fun p => !(p.1 == ((30 : Int), (42 : Int), (9 : Int)))) = true ∧
    tileAt make_map 30 42 9 = some Tile.wall := by
  refine ⟨by decide, by decide, ?_⟩
  rw [tileAt_make_map 30 42 9 (by decide)]
  have e : mAlg 30 42 9 = 17790 := by decide
  rw [e]
  simp

set_option maxHeartbeats 1000000 in
/-- C1 (amended): for every in-bounds coordinate, the tile lookup after
construction yields exactly the tile the authored placement list assigns to
that coordinate's linearized index (placements applied in order over an
all-empty map, a placement hitting the slot whenever its coordinate has the
same `mAlg` index — not only when it is literally the same coordinate). -/
theorem C1_tile_lookup (x y z : Int) (h : inBounds x y z) :
    tileAt make_map x y z = some (authoredTile x y z) := by
  rw [tileAt_make_map x y z h]
  unfold authoredTile placements
  simp only [List.foldl_cons, List.foldl_nil]
  have e1 : mAlg 30 22 10 = 17790 := by decide
  have e2 : mAlg 10 22 10 = 17770 := by decide
  have e3 : mAlg 10 12 1 = 2570 := by decide
  have e4 : mAlg 15 15 0 = 1215 := by decide
  have e5 : mAlg 0 2 0 = 160 := by decide
  have e6 : mAlg 30 29 1 = 3950 := by decide
  have e7 : mAlg 23 6 0 = 503 := by decide
  have e8 : mAlg 0 0 0 = 0 := by decide
  have e9 : mAlg 6 6 1 = 2086 := by decide
  have e10 : mAlg 30 25 0 = 2030 := by decide
  rw [e1, e2, e3, e4, e5, e6, e7, e8, e9, e10]
  generalize mAlg x y z = n
  clear e1 e2 e3 e4 e5 e6 e7 e8 e9 e10 h
  split_ifs <;> first | rfl | (exfalso; omega)

/-- C1 witness: at the authored wall placement (30, 22, 10) the amended
statement evaluates to the wall tile. -/
theorem C1_witness : tileAt make_map 30 22 10 = some Tile.wall := by
  rw [C1_tile_lookup 30 22 10 (by decide)]
  have e : authoredTile 30 22 10 = Tile.wall := by decide
  rw [e]

/-- C2 counterexample: the distinct in-bounds coordinates (0, 20, 0) and
(0, 0, 1) share the array index 1600, because the y-stride multiplier is
MAP_DEPTH = 20 while y ranges up to MAP_HEIGHT = 50. The claimed injectivity
on the full in-bounds domain is false. -/
theorem C2_counterexample :
    inBounds 0 20 0 ∧ inBounds 0 0 1 ∧
    ((0 : Int), (20 : Int), (0 : Int)) ≠ ((0 : Int), (0 : Int), (1 : Int)) ∧
    mAlg 0 20 0 = mAlg 0 0 1 := by
  refine ⟨by decide, by decide, by decide, by decide⟩

/-- C2 (amended): `mAlg` is injective on the domain where the y-coordinate is
bounded by the stride actually used, MAP_DEPTH (not MAP_HEIGHT): for
0 ≤ x < MAP_WIDTH, 0 ≤ y < MAP_DEPTH, 0 ≤ z < MAP_DEPTH, distinct
coordinates map to distinct array indices. -/
theorem C2_mAlg_injective (x₁ y₁ z₁ x₂ y₂ z₂ : Int)
    (h₁ : 0 ≤ x₁ ∧ x₁ < MAP_WIDTH ∧ 0 ≤ y₁ ∧ y₁ < MAP_DEPTH ∧ 0 ≤ z₁ ∧ z₁ < MAP_DEPTH)
    (h₂ : 0 ≤ x₂ ∧ x₂ < MAP_WIDTH ∧ 0 ≤ y₂ ∧ y₂ < MAP_DEPTH ∧ 0 ≤ z₂ ∧ z₂ < MAP_DEPTH)
    (hne : (x₁, y₁, z₁) ≠ (x₂, y₂, z₂)) :
    mAlg x₁ y₁ z₁ ≠ mAlg x₂ y₂ z₂ := by
  unfold MAP_WIDTH MAP_DEPTH at h₁ h₂
  intro heq
  apply hne
  have e₁ := mAlg_toNat x₁ y₁ z₁ (by omega) (by omega)
  have e₂ := mAlg_toNat x₂ y₂ z₂ (by omega) (by omega)
  have hx : x₁ = x₂ := by omega
  have hy : y₁ = y₂ := by omega
  have hz : z₁ = z₂ := by omega
  rw [hx, hy, hz]

/-- C2 witness: two concrete distinct coordinates in the amended domain get
distinct indices. -/
theorem C2_witness : mAlg 1 2 3 ≠ mAlg 2 2 3 :=
  C2_mAlg_injective 1 2 3 2 2 3 (by decide) (by decide) (by decide)

/-- C3: whenever the tile lookup succeeds, `is_blocked` returns true exactly
when the tile at (x, y, z) is blocked or some object in the list blocks and
sits exactly at (x, y, z), and returns false exactly otherwise. -/
theorem C3_is_blocked (x y z : Int) (map : Map) (objects : List Object)
    (t : Tile) (h : map[mAlg x y z]? = some t) :
    (is_blocked x y z map objects = some true ↔
      t.blocked = true ∨ ∃ o ∈ objects, o.blocks = true ∧ o.pos = (x, y, z)) ∧
    (is_blocked x y z map objects = some false ↔
      ¬(t.blocked = true ∨ ∃ o ∈ objects, o.blocks = true ∧ o.pos = (x, y, z))) := by
  unfold is_blocked
  rw [h]
  cases ht : t.blocked <;>
    simp [ht, List.any_eq_true, Bool.and_eq_true, beq_iff_eq, not_or]

/-- C3 witness: an entity placed exactly on a wall tile still yields true. -/
theorem C3_witness :
    is_blocked 0 0 0 [Tile.wall] [Object.new 0 0 0 "q" '@' WHITE true] = some true :=
  (C3_is_blocked 0 0 0 [Tile.wall] [Object.new 0 0 0 "q" '@' WHITE true]
    Tile.wall (by decide)).1.mpr (Or.inl rfl)

/-- C4: whenever the destination tile lookup succeeds, `move_by` commits the
incremented position exactly when the destination tile's blocked flag is
false, and returns the entity unchanged (no error) when it is blocked; the
result depends only on the destination tile (the function takes no entity
list at all), so entity occupancy never enters the decision. -/
theorem C4_move_by (o : Object) (dx dy dz : Int) (map : Map) (t : Tile)
    (h : map[usizeOf ((o.x + dx) + MAP_WIDTH * ((o.y + dy) + MAP_DEPTH * (o.z + dz)))]? = some t) :
    o.move_by dx dy dz map =
      some (if t.blocked then o
            else { o with x := o.x + dx, y := o.y + dy, z := o.z + dz }) := by
  unfold Object.move_by
  rw [h]
  cases ht : t.blocked <;> simp [ht]

/-- C4 witness: a move across unblocked terrain commits; the same entity
standing still on a wall-free cell stays. -/
theorem C4_witness : wObj.move_by (-1) (-2) (-3) [Tile.empty] = some wObjMoved := by
  rw [C4_move_by wObj (-1) (-2) (-3) [Tile.empty] Tile.empty (by decide)]
  decide

/-- C5: `move_by` is atomic and frame-preserving: when it returns (no panic),
either all three coordinates changed by exactly (dx, dy, dz) or all three are
unchanged, and name, char, color, blocks, alive and standing are unchanged in
both cases (the map, passed by shared reference, is never written). -/
theorem C5_move_by_frame (o : Object) (dx dy dz : Int) (map : Map)
    (o' : Object) (h : o.move_by dx dy dz map = some o') :
    ((o'.x = o.x + dx ∧ o'.y = o.y + dy ∧ o'.z = o.z + dz) ∨
      (o'.x = o.x ∧ o'.y = o.y ∧ o'.z = o.z)) ∧
    o'.name = o.name ∧ o'.char = o.char ∧ o'.color = o.color ∧
    o'.blocks = o.blocks ∧ o'.alive = o.alive ∧ o'.standing = o.standing := by
  unfold Object.move_by at h
  cases hm : map[usizeOf ((o.x + dx) + MAP_WIDTH * ((o.y + dy) + MAP_DEPTH * (o.z + dz)))]? with
  | none => rw [hm] at h; exact absurd h (by simp)
  | some t =>
    rw [hm] at h
    cases ht : t.blocked <;> simp [ht] at h <;> subst h <;> simp

/-- C5 witness: the committed move from (1, 2, 3) by (-1, -2, -3). -/
theorem C5_witness :
    ((wObjMoved.x = wObj.x + (-1) ∧ wObjMoved.y = wObj.y + (-2) ∧
        wObjMoved.z = wObj.z + (-3)) ∨
      (wObjMoved.x = wObj.x ∧ wObjMoved.y = wObj.y ∧ wObjMoved.z = wObj.z)) ∧
    wObjMoved.name = wObj.name ∧ wObjMoved.char = wObj.char ∧
    wObjMoved.color = wObj.color ∧ wObjMoved.blocks = wObj.blocks ∧
    wObjMoved.alive = wObj.alive ∧ wObjMoved.standing = wObj.standing :=
  C5_move_by_frame wObj (-1) (-2) (-3) [Tile.empty] wObjMoved (by decide)

theorem standingToggle_flags (o : Object) :
    o.standingToggle.standing = !o.standing ∧
    o.standingToggle.blocks = o.standingToggle.standing := by
  unfold Object.standingToggle
  cases hs : o.standing <;> simp [hs]

/-- C6 counterexample: for an entity created with blocks = false (so blocks
differs from its initial standing = true), toggling posture twice does not
return the original state: blocks ends up true. The double-toggle identity is
false as stated for every entity. -/
theorem C6_counterexample :
    (Object.new 0 0 0 "item" '!' WHITE false).standingToggle.standingToggle ≠
      Object.new 0 0 0 "item" '!' WHITE false := by decide

/-- C6 (amended): for every entity satisfying the posture invariant
blocks = standing, toggling twice returns the state exactly to its original
value; and for every entity (no invariant assumed) each single call inverts
standing and leaves blocks equal to the new standing. -/
theorem C6_toggle (o q : Object) (h : o.blocks = o.standing) :
    o.standingToggle.standingToggle = o ∧
    q.standingToggle.standing = !q.standing ∧
    q.standingToggle.blocks = q.standingToggle.standing := by
  refine ⟨?_, (standingToggle_flags q).1, (standingToggle_flags q).2⟩
  obtain ⟨ox, oy, oz, onm, och, ocol, ob, oal, ost⟩ := o
  replace h : ob = ost := h
  subst h
  unfold Object.standingToggle
  cases ob <;> simp

/-- C6 witness: the double toggle at a standing, blocking object, and the
single-call inversion at an entity that violates blocks = standing
(created with blocks = false while standing = true). -/
theorem C6_witness :
    wPlayer.standingToggle.standingToggle = wPlayer ∧
    (Object.new 0 0 0 "item" '!' WHITE false).standingToggle.standing =
      !(Object.new 0 0 0 "item" '!' WHITE false).standing ∧
    (Object.new 0 0 0 "item" '!' WHITE false).standingToggle.blocks =
      (Object.new 0 0 0 "item" '!' WHITE false).standingToggle.standing :=
  C6_toggle wPlayer (Object.new 0 0 0 "item" '!' WHITE false) (by decide)

theorem move_by_flags (o : Object) (dx dy dz : Int) (map : Map) (o' : Object)
    (h : o.move_by dx dy dz map = some o') :
    o'.blocks = o.blocks ∧ o'.standing = o.standing := by
  unfold Object.move_by at h
  cases hm : map[usizeOf ((o.x + dx) + MAP_WIDTH * ((o.y + dy) + MAP_DEPTH * (o.z + dz)))]? with
  | none => rw [hm] at h; exact absurd h (by simp)
  | some t =>
    rw [hm] at h
    cases ht : t.blocked <;> simp [ht] at h <;> subst h <;> simp

theorem handle_keys_flags (a : Action) (p : Object) (map : Map) (p' : Object)
    (e : Bool) (h : handle_keys a p map = some (p', e))
    (hp : p.blocks = p.standing) : p'.blocks = p'.standing := by
  cases a <;> unfold handle_keys at h
  case altEnter => simp at h; rw [← h.1]; exact hp
  case escape => simp at h; rw [← h.1]; exact hp
  case keyS =>
    simp at h
    rw [← h.1, (standingToggle_flags p).2]
  case other => simp at h; rw [← h.1]; exact hp
  case up =>
    cases hmv : p.move_by 0 (-1) 0 map with
    | none => rw [hmv] at h; exact absurd h (by simp)
    | some q =>
      rw [hmv] at h
      simp at h
      rw [← h.1, (move_by_flags p 0 (-1) 0 map q hmv).1,
        (move_by_flags p 0 (-1) 0 map q hmv).2]
      exact hp
  case down =>
    cases hmv : p.move_by 0 1 0 map with
    | none => rw [hmv] at h; exact absurd h (by simp)
    | some q =>
      rw [hmv] at h
      simp at h
      rw [← h.1, (move_by_flags p 0 1 0 map q hmv).1,
        (move_by_flags p 0 1 0 map q hmv).2]
      exact hp
  case left =>
    cases hmv : p.move_by (-1) 0 0 map with
    | none => rw [hmv] at h; exact absurd h (by simp)
    | some q =>
      rw [hmv] at h
      simp at h
      rw [← h.1, (move_by_flags p (-1) 0 0 map q hmv).1,
        (move_by_flags p (-1) 0 0 map q hmv).2]
      exact hp
  case right =>
    cases hmv : p.move_by 1 0 0 map with
    | none => rw [hmv] at h; exact absurd h (by simp)
    | some q =>
      rw [hmv] at h
      simp at h
      rw [← h.1, (move_by_flags p 1 0 0 map q hmv).1,
        (move_by_flags p 1 0 0 map q hmv).2]
      exact hp

theorem stepTurn_parts (cf : FovState → Int → Int → FovState) (map : Map)
    (s : GameState) (a : Action) (s' : GameState) (e : Bool)
    (h : stepTurn cf map s a = some (s', e)) :
    handle_keys a s.playerObj map = some (s'.playerObj, e) ∧
    s'.npcObj = s.npcObj ∧ s'.prevPos = (s.playerObj.x, s.playerObj.y) ∧
    s'.fov = render_fov cf s := by
  unfold stepTurn at h
  cases hk : handle_keys a s.playerObj map with
  | none => rw [hk] at h; exact absurd h (by simp)
  | some pe =>
    obtain ⟨p', ex⟩ := pe
    rw [hk] at h
    simp at h
    obtain ⟨h1, h2⟩ := h
    subst h1
    subst h2
    exact ⟨rfl, rfl, rfl, rfl⟩

/-- C7: in every state the turn loop can reach from the initial
configuration, both entities satisfy the invariant blocks = standing; and a
posture-toggle call flips standing to its negation while making blocks equal
to the new standing (true exactly when standing ends up true). -/
theorem C7_invariant (cf : FovState → Int → Int → FovState) (s : GameState)
    (h : Reachable cf s) (o : Object) :
    s.playerObj.blocks = s.playerObj.standing ∧
    s.npcObj.blocks = s.npcObj.standing ∧
    o.standingToggle.standing = !o.standing ∧
    o.standingToggle.blocks = o.standingToggle.standing := by
  have key : s.playerObj.blocks = s.playerObj.standing ∧
      s.npcObj.blocks = s.npcObj.standing := by
    induction h with
    | init => exact ⟨rfl, rfl⟩
    | @step s₀ s₁ a e hr hstep ih =>
      obtain ⟨hk, hnpc, _, _⟩ := stepTurn_parts cf make_map s₀ a s₁ e hstep
      refine ⟨handle_keys_flags a s₀.playerObj make_map s₁.playerObj e hk ih.1, ?_⟩
      rw [hnpc]
      exact ih.2
  exact ⟨key.1, key.2, (standingToggle_flags o).1, (standingToggle_flags o).2⟩

/-- C7 witness: the invariant at the initial state, with the toggle facts at
the initial player. -/
theorem C7_witness :
    initState.playerObj.blocks = initState.playerObj.standing ∧
    initState.npcObj.blocks = initState.npcObj.standing ∧
    initState.playerObj.standingToggle.standing = !initState.playerObj.standing ∧
    initState.playerObj.standingToggle.blocks =
      initState.playerObj.standingToggle.standing :=
  C7_invariant wCf initState Reachable.init initState.playerObj

/-- C8: the loop recomputes the fov exactly when the viewpoint's (x, y)
differs from the recorded previous position (z is not consulted: changing
the viewpoint's z leaves the staleness flag unchanged); and after a turn in
which the viewpoint's (x, y) did not change, the next turn does not
recompute, so the fov state queried by `is_in_fov` is identical to the
previous turn's. -/
theorem C8_fov_staleness (cf : FovState → Int → Int → FovState) (map : Map)
    (s s' : GameState) (a : Action) (e : Bool) (w : Int)
    (h : stepTurn cf map s a = some (s', e))
    (hpos : (s'.playerObj.x, s'.playerObj.y) = (s.playerObj.x, s.playerObj.y)) :
    (fov_recompute s = true ↔ s.prevPos ≠ (s.playerObj.x, s.playerObj.y)) ∧
    fov_recompute { s with playerObj := { s.playerObj with z := w } } =
      fov_recompute s ∧
    fov_recompute s' = false ∧
    render_fov cf s' = render_fov cf s := by
  obtain ⟨_, _, hprev, hfov⟩ := stepTurn_parts cf map s a s' e h
  have hflag : fov_recompute s' = false := by
    unfold fov_recompute
    rw [hprev, ← hpos]
    simp
  refine ⟨?_, rfl, hflag, ?_⟩
  · unfold fov_recompute
    simp
  · have hs' : render_fov cf s' = s'.fov := by
      unfold render_fov
      rw [hflag]
      simp
    rw [hs', hfov]

/-- C8 witness: a posture-toggle turn from the initial state leaves the
viewpoint in place, and the following turn's fov is the same state. -/
theorem C8_witness :
    (fov_recompute initState = true ↔
      initState.prevPos ≠ (initState.playerObj.x, initState.playerObj.y)) ∧
    fov_recompute { initState with
        playerObj := { initState.playerObj with z := 0 } } =
      fov_recompute initState ∧
    fov_recompute wS1 = false ∧
    render_fov wCf wS1 = render_fov wCf initState :=
  C8_fov_staleness wCf [] initState wS1 Action.keyS false 0 rfl rfl

/-- C10: every map access linearizes through the single function `mAlg`,
which computes the spec's canonical `x + WIDTH*(y + DEPTH*z)` (DEPTH, not
HEIGHT, multiplying the y-term): the movement destination check of
`move_by`, the render access `eq`, the tile lookup (as used by the collision
query `is_blocked` and the fov setup), and every construction override of
`make_map` (the placement list folded with `mAlg` reproduces it exactly). -/
theorem C10_canonical_index (x y z dx dy dz : Int) (o : Object) :
    mAlg x y z = usizeOf (specIndex x y z) ∧
    usizeOf ((o.x + dx) + MAP_WIDTH * ((o.y + dy) + MAP_DEPTH * (o.z + dz))) =
      mAlg (o.x + dx) (o.y + dy) (o.z + dz) ∧
    render_eq x y = mAlg x y 10 ∧
    tileAt make_map x y z = make_map[mAlg x y z]? ∧
    make_map = (((((((((emptyMap.set
      (usizeOf (specIndex 30 22 10)) Tile.wall).set
      (usizeOf (specIndex 10 22 10)) Tile.wall).set
      (usizeOf (specIndex 10 12 1)) Tile.wall).set
      (usizeOf (specIndex 15 15 0)) Tile.empty).set
      (usizeOf (specIndex 0 2 0)) Tile.wall).set
      (usizeOf (specIndex 30 29 1)) Tile.wall).set
      (usizeOf (specIndex 23 6 0)) Tile.wall).set
      (usizeOf (specIndex 0 0 0)) Tile.wall).set
      (usizeOf (specIndex 6 6 1)) Tile.wall).set
      (usizeOf (specIndex 30 25 0)) Tile.wall :=
  ⟨rfl, rfl, rfl, rfl, rfl⟩

theorem move_by_commit (o : Object) (dx dy dz : Int) (map : Map) (t : Tile)
    (h : map[usizeOf ((o.x + dx) + MAP_WIDTH * ((o.y + dy) + MAP_DEPTH * (o.z + dz)))]? = some t)
    (hb : t.blocked = false) :
    o.move_by dx dy dz map =
      some ({ o with x := o.x + dx, y := o.y + dy, z := o.z + dz }) := by
  unfold Object.move_by
  rw [h]
  simp [hb]

theorem stepTurn_up (cf : FovState → Int → Int → FovState) (map : Map)
    (s : GameState) (q : Object)
    (h : s.playerObj.move_by 0 (-1) 0 map = some q) :
    stepTurn cf map s Action.up =
      some ({ s with
          playerObj := q
          prevPos := (s.playerObj.x, s.playerObj.y)
          fov := render_fov cf s }, false) := by
  unfold stepTurn handle_keys
  rw [h]
  rfl

theorem step_up (cf : FovState → Int → Int → FovState) (s : GameState)
    (hx : s.playerObj.x = 45) (hz : s.playerObj.z = 10)
    (hy0 : 0 ≤ s.playerObj.y) (hy1 : s.playerObj.y ≤ 30) :
    stepTurn cf make_map s Action.up =
      some ({ s with
          playerObj := { s.playerObj with
            x := s.playerObj.x + 0, y := s.playerObj.y + (-1),
            z := s.playerObj.z + 0 },
          prevPos := (s.playerObj.x, s.playerObj.y),
          fov := render_fov cf s }, false) := by
  have hi : (usizeOf ((s.playerObj.x + 0) + MAP_WIDTH *
      ((s.playerObj.y + (-1)) + MAP_DEPTH * (s.playerObj.z + 0))) : Int) =
      80 * s.playerObj.y + 15965 := by
    unfold usizeOf MAP_WIDTH MAP_DEPTH
    rw [hx, hz, two_pow_64]
    omega
  have hlook : make_map[usizeOf ((s.playerObj.x + 0) + MAP_WIDTH *
      ((s.playerObj.y + (-1)) + MAP_DEPTH * (s.playerObj.z + 0)))]? =
      some Tile.empty := by
    rw [make_map_getElem _ (by omega), if_neg (by omega)]
  exact stepTurn_up cf make_map s _
    (move_by_commit s.playerObj 0 (-1) 0 make_map Tile.empty hlook rfl)

theorem up_reach : ∀ n : Nat, n ≤ 31 →
    ∃ s : GameState, Reachable wCf s ∧ s.playerObj.x = 45 ∧
      s.playerObj.z = 10 ∧ s.playerObj.y = 30 - (n : Int) := by
  intro n
  induction n with
  | zero =>
    intro _
    exact ⟨initState, Reachable.init, by decide, by decide, by decide⟩
  | succ k ih =>
    intro hk
    obtain ⟨s, hr, hx, hz, hy⟩ := ih (by omega)
    refine ⟨_, Reachable.step hr (step_up wCf s hx hz (by omega) (by omega)),
      ?_, ?_, ?_⟩
    · show s.playerObj.x + 0 = 45
      omega
    · show s.playerObj.z + 0 = 10
      omega
    · show s.playerObj.y + (-1) = 30 - ((k : Int) + 1)
      omega

/-- C9 is violated by the code: from the initial configuration (player at
(45, 30, 10)), thirty-one consecutive `Up` moves are all committed by
`move_by` — no wall interferes and no bounds check exists — leaving the
player at (45, -1, 10), a coordinate outside the map extents
(0 ≤ y < MAP_HEIGHT fails). This theorem exhibits that reachable
out-of-bounds state, contradicting the claimed safety property. -/
theorem C9_out_of_bounds :
    ∃ s : GameState, Reachable wCf s ∧
      (s.playerObj.x, s.playerObj.y, s.playerObj.z) = (45, -1, 10) ∧
      ¬ inBounds s.playerObj.x s.playerObj.y s.playerObj.z := by
  obtain ⟨s, hr, hx, hz, hy⟩ := up_reach 31 (by omega)
  refine ⟨s, hr, ?_, ?_⟩
  · rw [hx, hz, hy]
    norm_num
  · unfold inBounds
    rw [hy]
    norm_num

end RustyRogue
